import Mathlib

/-!
Verification of `document_datasets.py` (dataset-catalog documentation
generator) against its natural-language specification.

The script is a pure, stateless transform from a registry snapshot to a
Markdown document.  We embed its data model and operations shallowly:

* Python strings are `String`; Python string comparison (`<` on strings,
  used by `sorted` and tuple comparison in `list.sort`) is code-point
  lexicographic, embedded as a structural Boolean comparison on the
  underlying character lists (`strLtB`), because the comparison must be
  executable inside the kernel.
* Python dicts that the script builds itself (the nested `defaultdict`
  grouping) are association lists with `defaultdict` semantics: updating an
  existing key keeps its position, a new key is appended (Python dicts
  preserve insertion order).
* The external dataset registry (`tfds.list_builders`, `tfds.builder`,
  `tfds.units.size_str`, the source-link resolver `cls_url`) is out of
  scope per the spec and is passed in as an abstract `Registry` record.
* Fallible external resolution is not modelled (a resolution failure is a
  fatal abort per the spec); `schema_org`, which indexes `info.urls[0]`
  and can raise `IndexError`, returns an `Option`.
-/

/-- Byte/code-point comparison of single characters, as Python compares the
characters of a string: by code point. -/
def charLtB (a b : Char) : Bool := a.toNat < b.toNat

/-- Lexicographic code-point comparison of character lists: the embedding of
Python string `<` (shorter prefix sorts first, first differing character
decides). -/
def strLtB : List Char → List Char → Bool
  | [], [] => false
  | [], _ :: _ => true
  | _ :: _, [] => false
  | a :: as, b :: bs => if a = b then strLtB as bs else charLtB a b

/-- Python `s < t` on strings. -/
def pyLt (s t : String) : Bool := strLtB s.data t.data

/-- Python `s <= t` on strings (total order: `s <= t` iff not `t < s`). -/
def pyLe (s t : String) : Bool := !(pyLt t s)

theorem strLtB_asymm : ∀ x y : List Char, strLtB x y = true → strLtB y x = false := by
  intro x
  induction x with
  | nil => intro y h; cases y <;> simp [strLtB] at h ⊢
  | cons a as ih =>
    intro y h
    cases y with
    | nil => simp [strLtB] at h
    | cons b bs =>
      simp only [strLtB] at h ⊢
      by_cases hab : a = b
      · subst hab
        simp only [if_pos rfl] at h ⊢
        exact ih bs h
      · rw [if_neg hab] at h
        rw [if_neg (fun hba => hab hba.symm)]
        simp only [charLtB, decide_eq_true_eq, decide_eq_false_iff_not, Nat.not_lt] at h ⊢
        omega

theorem strLtB_trans : ∀ x y z : List Char, strLtB x y = true → strLtB y z = true → strLtB x z = true := by
  intro x
  induction x with
  | nil =>
    intro y z hxy hyz
    cases y with
    | nil => simp [strLtB] at hxy
    | cons b bs => cases z with
      | nil => simp [strLtB] at hyz
      | cons c cs => simp [strLtB]
  | cons a as ih =>
    intro y z hxy hyz
    cases y with
    | nil => simp [strLtB] at hxy
    | cons b bs =>
      cases z with
      | nil => simp [strLtB] at hyz
      | cons c cs =>
        simp only [strLtB] at hxy hyz ⊢
        by_cases hab : a = b
        · subst hab
          rw [if_pos rfl] at hxy
          by_cases hbc : a = c
          · subst hbc
            rw [if_pos rfl] at hyz ⊢
            exact ih bs cs hxy hyz
          · rw [if_neg hbc] at hyz ⊢
            exact hyz
        · rw [if_neg hab] at hxy
          by_cases hbc : b = c
          · subst hbc
            rw [if_neg hab]
            exact hxy
          · rw [if_neg hbc] at hyz
            simp only [charLtB, decide_eq_true_eq] at hxy hyz
            have hac : a ≠ c := by
              intro h
              subst h
              omega
            rw [if_neg hac]
            simp only [charLtB, decide_eq_true_eq]
            omega

theorem strLtB_connex : ∀ x y : List Char, strLtB x y = false → strLtB y x = false → x = y := by
  intro x
  induction x with
  | nil => intro y h _; cases y <;> simp_all [strLtB]
  | cons a as ih =>
    intro y hxy hyx
    cases y with
    | nil => simp [strLtB] at hyx
    | cons b bs =>
      simp only [strLtB] at hxy hyx
      by_cases hab : a = b
      · subst hab
        rw [if_pos rfl] at hxy hyx
        rw [ih bs hxy hyx]
      · rw [if_neg hab] at hxy
        rw [if_neg (fun hba => hab hba.symm)] at hyx
        simp only [charLtB, decide_eq_false_iff_not, decide_eq_true_eq, Nat.not_lt] at hxy hyx
        have : a.toNat = b.toNat := Nat.le_antisymm hyx hxy
        exact absurd (Char.eq_of_val_eq (UInt32.ext this)) hab

theorem pyLe_total (s t : String) : pyLe s t = true ∨ pyLe t s = true := by
  simp only [pyLe, pyLt, Bool.not_eq_true']
  by_cases h : strLtB t.data s.data = true
  · exact Or.inr (strLtB_asymm _ _ h)
  · exact Or.inl (Bool.not_eq_true _ ▸ h)

theorem pyLe_trans (a b c : String) (hab : pyLe a b = true) (hbc : pyLe b c = true) : pyLe a c = true := by
  simp only [pyLe, pyLt, Bool.not_eq_true'] at hab hbc ⊢
  by_cases hca : strLtB c.data a.data = true
  · by_cases hba : strLtB b.data a.data = true
    · simp [hba] at hab
    · by_cases hcb : strLtB c.data b.data = true
      · simp [hcb] at hbc
      · have h1 : b.data = a.data ∨ strLtB a.data b.data = true := by
          by_cases h : strLtB a.data b.data = true
          · exact Or.inr h
          · exact Or.inl (strLtB_connex _ _ (by simpa using hba) (by simpa using h))
        cases h1 with
        | inl h =>
          rw [← h] at hca
          simp [hca] at hbc
        | inr h =>
          have := strLtB_trans _ _ _ hca h
          have := strLtB_asymm _ _ this
          simp_all
  · simpa using hca

theorem pyLe_antisymm (a b : String) (hab : pyLe a b = true) (hba : pyLe b a = true) : a = b := by
  simp only [pyLe, pyLt, Bool.not_eq_true'] at hab hba
  have h := strLtB_connex _ _ hba hab
  cases a with
  | mk da => cases b with
    | mk db => exact congrArg String.mk (by simpa using h)

theorem pyLt_of_pyLe_of_ne (a b : String) (hab : pyLe a b = true) (hne : a ≠ b) : pyLt a b = true := by
  simp only [pyLe, pyLt, Bool.not_eq_true'] at hab ⊢
  by_cases h : strLtB a.data b.data = true
  · exact h
  · have heq := strLtB_connex _ _ (by simpa using h) hab
    exfalso
    apply hne
    cases a with
    | mk da => cases b with
      | mk db => exact congrArg String.mk (by simpa using heq)

theorem pyLt_asymm_strings (a b : String) (h : pyLt a b = true) : pyLt b a = false := by
  simpa [pyLt] using strLtB_asymm _ _ h

/-- The `Prop` form of Python string `<=`, used as the sorting relation
everywhere the script calls `sorted` or `list.sort` on strings. -/
def strLe (s t : String) : Prop := pyLe s t = true

instance : DecidableRel strLe := fun s t => inferInstanceAs (Decidable (pyLe s t = true))

instance : IsTotal String strLe := ⟨fun s t => pyLe_total s t⟩

instance : IsTrans String strLe := ⟨fun a b c => pyLe_trans a b c⟩

/-- Key order on association-list entries: compare the (string) keys only. -/
def keyLe {β : Type} (a b : String × β) : Prop := strLe a.1 b.1

instance {β : Type} : DecidableRel (@keyLe β) := fun a b => inferInstanceAs (Decidable (strLe a.1 b.1))

instance {β : Type} : IsTotal (String × β) keyLe := ⟨fun a b => pyLe_total a.1 b.1⟩

instance {β : Type} : IsTrans (String × β) keyLe := ⟨fun a b c => pyLe_trans a.1 b.1 c.1⟩

/-- Strict key order on association-list entries. -/
def keyLt {β : Type} (a b : String × β) : Prop := pyLt a.1 b.1 = true

instance {β : Type} : IsAntisymm (String × β) keyLt :=
  ⟨fun a b h1 h2 => by
    have := pyLt_asymm_strings _ _ h1
    rw [keyLt] at h2
    simp_all⟩

/-- Python `" " * n`. -/
def spacesStr (n : Nat) : String := String.mk (List.replicate n ' ')

/-- Python `str.upper()` on the ASCII split names used by the script:
per-character uppercasing. -/
def upperStr (s : String) : String := String.mk (s.data.map Char.toUpper)

/-- Python whitespace for `str.strip()`: space, tab, newline, carriage
return, vertical tab, form feed. -/
def pyIsSpace (c : Char) : Bool :=
  c = ' ' || c = '\t' || c = '\n' || c = '\r' || c = '\x0b' || c = '\x0c'

/-- Python `str.strip()`. -/
def stripStr (s : String) : String :=
  String.mk (((s.data.dropWhile pyIsSpace).reverse.dropWhile pyIsSpace).reverse)

/-- Helper for `splitModule`: accumulates the current segment (reversed). -/
def splitSeg : List Char → List Char → List String
  | [], acc => [String.mk acc.reverse]
  | c :: cs, acc => if c = '.' then String.mk acc.reverse :: splitSeg cs [] else splitSeg cs (c :: acc)

/-- Python `mod_name.split(".")` (empty segments preserved, as in Python). -/
def splitModule (s : String) : List String := splitSeg s.data []

/-- Helper for `numWithCommas`: inserts a comma after every third character
of a reversed digit list. -/
def commaRev : List Char → List Char
  | a :: b :: c :: d :: rest => a :: b :: c :: ',' :: commaRev (d :: rest)
  | l => l

/-- Python format spec `,`: thousands separators, e.g. 60000 to "60,000". -/
def numWithCommas (n : Nat) : String :=
  String.mk ((commaRev (toString n).data.reverse).reverse)

/-- Python format spec `{0:10}` on a string: left-justified, min width 10. -/
def fmtLeft10 (s : String) : String := s ++ String.mk (List.replicate (10 - s.length) ' ')

/-- Python format spec `{1:>10,}`: right-justified, min width 10 (of the
comma-grouped digits). -/
def fmtRight10 (s : String) : String := String.mk (List.replicate (10 - s.length) ' ') ++ s

/-- Python `sep.join(parts)`, written as a plain structural recursion so
that its equations hold definitionally. -/
def pyJoin (sep : String) : List String → String
  | [] => ""
  | [a] => a
  | a :: b :: rest => a ++ sep ++ pyJoin sep (b :: rest)

/-- A feature-schema object (`tfds.features`): a leaf feature renders by its
`str(v)` form (we store that string); a nested `FeaturesDict` holds its
dynamic type name (`type(features_dict).__name__`) and its entries. A dict
has unique keys; association-list order models Python dict insertion
order. -/
inductive Feature where
  | leaf : String → Feature
  | dict : String → List (String × Feature) → Feature

/-- Per-resolved-builder metadata (`tfds.core.DatasetInfo`), as the script
reads it. `supervised_keys` holds the `str()` form of the supervised-keys
spec (an opaque value to the script); `splits` maps split name to
`num_examples`; `total_num_examples` is `info.splits.total_num_examples`
(0 when statistics are not computed). -/
structure Info where
  description : String
  version : String
  urls : List String
  size_in_bytes : Nat
  supervised_keys : String
  citation : String
  features : Feature
  splits : List (String × Nat)
  total_num_examples : Nat

/-- A configuration descriptor (`tfds.core.BuilderConfig`). -/
structure Config where
  name : String
  description : String
  version : String

/-- A builder descriptor (`tfds.core.DatasetBuilder`) as the script reads
it: `module` is `__class__.__module__`, `cls_name` is
`__class__.__name__`, `builder_config_cls` is
`type(builder.builder_config).__name__` (meaningful on a builder resolved
with a config), and `info` is `builder.info`. The source's truthiness test
`if builder.builder_configs:` is nonemptiness of `BUILDER_CONFIGS`. -/
structure Builder where
  name : String
  module : String
  cls_name : String
  BUILDER_CONFIGS : List Config
  builder_config_cls : String
  info : Info

/-- The external dataset registry and the out-of-scope services the script
consumes (spec section 6): `builder` is `tfds.builder(name)`,
`resolve_config` is `tfds.builder(name, config=config)`,
`image_label_folder` is the separately-constructed
`tfds.builder("image_label_folder", dataset_name="image_label_folder")`,
`size_str` is `tfds.units.size_str`, and `cls_url` the source-link
resolver. -/
structure Registry where
  list_builders : List String
  builder : String → Builder
  resolve_config : String → Config → Builder
  image_label_folder : Builder
  size_str : Nat → String
  cls_url : String → String

mutual

/-- Embedding of `_pprint_features_dict(features_dict, indent, add_prefix)`.
The source iterates `sorted(list(features_dict.keys()))` and renders each
value (recursively for a nested `FeaturesDict`, `str(v)` for a leaf); here
each entry is rendered first and the rendered `(key, text)` pairs are then
sorted by key, which yields the same lines for a dict (unique keys), and
keeps the recursion structural. A leaf at the top level is `str(v)` (the
source is only called on dicts). -/
def _pprint_features_dict : Feature → Nat → Bool → String
  | .leaf v, _, _ => v
  | .dict tname entries, indent, add_prefix =>
    let first_last_indent_str := spacesStr indent
    let indent_str := spacesStr (indent + 4)
    let first_line := (if add_prefix then first_last_indent_str else "") ++ tname ++ "(\x7b"
    let sorted := List.insertionSort keyLe (_pprint_entries entries (indent + 4))
    pyJoin "\n"
      ((first_line :: sorted.map (fun p => indent_str ++ "'" ++ p.1 ++ "': " ++ p.2 ++ ","))
        ++ [first_last_indent_str ++ "\x7d)"])

/-- The body of the source's `for k in sorted(...)` loop, one rendered
`(key, value-text)` pair per entry. -/
def _pprint_entries : List (String × Feature) → Nat → List (String × String)
  | [], _ => []
  | (k, v) :: rest, indent => (k, _pprint_features_dict v indent false) :: _pprint_entries rest indent

end

/-- Embedding of `url_from_info`: the Python expression
`(info.urls and info.urls[0]) or "<no known url>"`. An empty list is falsy
(yielding the sentinel), and so is an empty first string (the `or` then
also yields the sentinel). -/
def url_from_info (info : Info) : String :=
  match info.urls with
  | [] => "<no known url>"
  | u :: _ => if u = "" then "<no known url>" else u

/-- Embedding of `format_urls`. -/
def format_urls (urls : List String) : String :=
  pyJoin "\n" (urls.map (fun url => " * [" ++ url ++ "](" ++ url ++ ")"))

/-- Embedding of `tfds_mod_name`: `".".join(["tfds"] + mod_name.split(".")[1:])`. -/
def tfds_mod_name (mod_name : String) : String :=
  pyJoin "." ("tfds" :: (splitModule mod_name).drop 1)

/-- The `FEATURE_BLOCK` template applied to its one `%s` argument. -/
def FEATURE_BLOCK_fmt (s : String) : String := "```python\n" ++ s ++ "\n```\n"

/-- The `CITATION_BLOCK` template applied to its one `%s` argument. -/
def CITATION_BLOCK_fmt (s : String) : String := "#### Citation\n```\n" ++ s ++ "\n```\n"

/-- The `STATISTICS_TABLE` template applied to `split_statistics`. -/
def STATISTICS_TABLE_fmt (split_statistics : String) : String :=
  "Split  | Examples\n:----- | ---:\n" ++ split_statistics ++ "\n"

/-- Embedding of `make_feature_information`. -/
def make_feature_information (info : Info) : String :=
  FEATURE_BLOCK_fmt (_pprint_features_dict info.features 0 true)

/-- Embedding of `make_citation`: the citation block when the citation text
is truthy (nonempty), else the empty string. -/
def make_citation (citation : String) : String :=
  if citation = "" then "" else CITATION_BLOCK_fmt (stripStr citation)

/-- Ascending lexicographic order on the `(num_examples, name)` tuples the
statistics code sorts: Python tuple `<=`. -/
def tupLeB (a b : Nat × String) : Bool :=
  a.1 < b.1 || (a.1 = b.1 && pyLe a.2 b.2)

/-- The descending-sort relation of `stats.sort(reverse=True)`: row `a` can
stand before row `b` iff `b <= a` as Python tuples. -/
def statGe (a b : Nat × String) : Prop := tupLeB b a = true

instance : DecidableRel statGe := fun a b => inferInstanceAs (Decidable (tupLeB b a = true))

instance : IsTotal (Nat × String) statGe :=
  ⟨fun a b => by
    simp only [statGe, tupLeB, Bool.or_eq_true, Bool.and_eq_true, decide_eq_true_eq]
    rcases Nat.lt_trichotomy a.1 b.1 with h | h | h
    · exact Or.inr (Or.inl h)
    · rcases pyLe_total a.2 b.2 with hs | hs
      · exact Or.inr (Or.inr ⟨h, hs⟩)
      · exact Or.inl (Or.inr ⟨h.symm, hs⟩)
    · exact Or.inl (Or.inl h)⟩

instance : IsTrans (Nat × String) statGe :=
  ⟨fun a b c hab hbc => by
    simp only [statGe, tupLeB, Bool.or_eq_true, Bool.and_eq_true, decide_eq_true_eq] at hab hbc ⊢
    rcases hab with h1 | ⟨h1, hs1⟩ <;> rcases hbc with h2 | ⟨h2, hs2⟩
    · exact Or.inl (Nat.lt_trans h2 h1)
    · exact Or.inl (h2 ▸ h1)
    · exact Or.inl (h1 ▸ h2)
    · exact Or.inr ⟨h2.trans h1, pyLe_trans _ _ _ hs2 hs1⟩⟩

/-- The sorted `stats` list built by `make_statistics_information`: the
aggregate `(total, "ALL")` row, then one `(num_examples, NAME)` row per
split, sorted with `stats.sort(reverse=True)` (descending Python-tuple
order; `List.insertionSort` with `statGe` places tied rows in original
order, matching Python's stable sort). -/
def statRows (info : Info) : List (Nat × String) :=
  List.insertionSort statGe
    ((info.total_num_examples, "ALL") :: info.splits.map (fun p => (p.2, upperStr p.1)))

/-- Embedding of `make_statistics_information`: the sentinel when
`info.splits.total_num_examples` is falsy (0), else the statistics table
with one `"{0:10} | {1:>10,}"` row per entry of `statRows`. -/
def make_statistics_information (info : Info) : String :=
  if info.total_num_examples = 0 then "None computed"
  else
    STATISTICS_TABLE_fmt (pyJoin "\n"
      ((statRows info).map (fun p => fmtLeft10 p.2 ++ " | " ++ fmtRight10 (numWithCommas p.1))))

/-- The `CONFIG_BULLET` template. -/
def CONFIG_BULLET_fmt (name version size description : String) : String :=
  "* `\"" ++ name ++ "\"` (`v" ++ version ++ "`) (`Size: " ++ size ++ "`): " ++ description ++ "\n"

/-- The `SINGLE_CONFIG_ENTRY` template. -/
def SINGLE_CONFIG_ENTRY_fmt (builder_name config_name feature_information : String) : String :=
  "#### `\"" ++ builder_name ++ "/" ++ config_name ++ "\"`\n\n" ++ feature_information ++ "\n\n"

/-- The `DATASET_ENTRY` template (builders without configs). The
`descriptionPrefix` argument models the source's `description_prefix`. -/
def DATASET_ENTRY_fmt (snakecase_name descriptionPrefix description url module_and_class clsUrl version size feature_information statistics_information urls supervised_keys citation : String) : String :=
  "### `\"" ++ snakecase_name ++ "\"`\n\n" ++ descriptionPrefix ++ description
    ++ "\n\n* URL: [" ++ url ++ "](" ++ url ++ ")\n* `DatasetBuilder`: [`" ++ module_and_class
    ++ "`](" ++ clsUrl ++ ")\n* Version: `v" ++ version ++ "`\n* Size: `" ++ size
    ++ "`\n\n#### Features\n" ++ feature_information
    ++ "\n\n#### Statistics\n" ++ statistics_information
    ++ "\n\n#### Urls\n" ++ urls
    ++ "\n\n#### Supervised keys (for `as_supervised=True`)\n`" ++ supervised_keys
    ++ "`\n\n" ++ citation ++ "\n---\n"

/-- The `DATASET_WITH_CONFIGS_ENTRY` template (builders with configs). -/
def DATASET_WITH_CONFIGS_ENTRY_fmt (snakecase_name descriptionPrefix description url module_and_class clsUrl config_cls config_names configs statistics_information urls supervised_keys citation : String) : String :=
  "### `\"" ++ snakecase_name ++ "\"`\n\n" ++ descriptionPrefix ++ description
    ++ "\n\n* URL: [" ++ url ++ "](" ++ url ++ ")\n* `DatasetBuilder`: [`" ++ module_and_class
    ++ "`](" ++ clsUrl ++ ")\n\n`" ++ snakecase_name ++ "` is configured with `" ++ config_cls
    ++ "` and has the following\nconfigurations predefined (defaults to the first one):\n\n"
    ++ config_names ++ "\n\n" ++ configs
    ++ "\n\n#### Statistics\n" ++ statistics_information
    ++ "\n\n#### Urls\n" ++ urls
    ++ "\n\n#### Supervised keys (for `as_supervised=True`)\n`" ++ supervised_keys
    ++ "`\n\n" ++ citation ++ "\n---\n"

/-- The `SECTION_DATASETS` template. -/
def SECTION_DATASETS_fmt (section_name datasets : String) : String :=
  "## [`" ++ section_name ++ "`](#" ++ section_name ++ ")\n\n" ++ datasets ++ "\n"

/-- The `DOC` document template (usage banner, table of contents, sections). -/
def DOC_fmt (toc datasets : String) : String :=
  "<!-- auto-generated by tfds.scripts.document_datasets -->\n# Datasets\n\n## Usage\n\n```python\n# See all registered datasets\ntfds.list_builders()\n\n# Load a given dataset by name, along with the DatasetInfo\ndata, info = tfds.load(\"mnist\", with_info=True)\ntrain_data, test_data = data['train'], data['test']\nassert isinstance(train_data, tf.data.Dataset)\nassert info.features['label'].num_classes == 10\nassert info.splits['train'].num_examples == 60000\n\n# You can also access a builder directly\nbuilder = tfds.builder(\"mnist\")\nassert builder.info.splits['train'].num_examples == 60000\nbuilder.download_and_prepare()\ndatasets = builder.as_dataset()\n\n# If you need NumPy arrays\nnp_datasets = tfds.as_numpy(datasets)\n```\n\n---\n\n## All Datasets\n\n"
    ++ toc ++ "\n\n---\n\n" ++ datasets ++ "\n"

/-- Embedding of `BUILDER_BLACKLIST`: the one builder needing an extra
constructor argument, handled separately. -/
def BUILDER_BLACKLIST : List String := ["image_label_folder"]

/-- Association-list update with `defaultdict` semantics: an existing key is
updated in place (insertion order kept), a missing key is appended with
`f dflt`. -/
def assocUpdate {β : Type} (l : List (String × β)) (k : String) (dflt : β) (f : β → β) : List (String × β) :=
  match l with
  | [] => [(k, f dflt)]
  | (k1, v) :: rest => if k1 = k then (k1, f v) :: rest else (k1, v) :: assocUpdate rest k dflt f

/-- Association-list lookup with a default (the read
`module_to_builder["tensorflow_datasets"]` on a `defaultdict`). -/
def lookupD {β : Type} (l : List (String × β)) (k : String) (dflt : β) : β :=
  match l with
  | [] => dflt
  | (k1, v) :: rest => if k1 = k then v else lookupD rest k dflt

/-- Innermost level of the grouping: leaf module name to builder list. -/
abbrev LeafDict := List (String × List Builder)

/-- Middle level: category module name to leaf dict (the value returned for
the `"tensorflow_datasets"` root). -/
abbrev SectionDict := List (String × LeafDict)

/-- Outermost level: root package name to section dict. -/
abbrev RootDict := List (String × SectionDict)

/-- Appending a builder to one leaf bucket (`current_mod_ctr.append(builder)`). -/
def insertLeaf (d : LeafDict) (m : String) (b : Builder) : LeafDict :=
  assocUpdate d m [] (fun l => l ++ [b])

/-- Descending one level and appending at the leaf. -/
def insertSection (d : SectionDict) (m1 m2 : String) (b : Builder) : SectionDict :=
  assocUpdate d m1 [] (fun d1 => insertLeaf d1 m2 b)

/-- The loop `for mod in modules: current_mod_ctr = current_mod_ctr[mod]`
followed by `.append(builder)`, on the source's three-level `defaultdict`
literal. A module path with exactly three segments (the shape of every
real tfds module path, e.g. `tensorflow_datasets.image.mnist`) descends
three times and appends; any other shape raises in Python (`.append` on a
defaultdict, or string indexing into a list) and never occurs, so it is
embedded as a no-op. -/
def insertPath (d : RootDict) (modules : List String) (b : Builder) : RootDict :=
  match modules with
  | [m0, m1, m2] => assocUpdate d m0 [] (fun d1 => insertSection d1 m1 m2 b)
  | _ => d

/-- The body of the source's `for builder in builders:` loop: skip builders
whose module path contains a `"testing"` segment (`continue`), insert the
rest along their module path. -/
def groupStep (d : RootDict) (b : Builder) : RootDict :=
  let modules := splitModule b.module
  if "testing" ∈ modules then d else insertPath d modules b

/-- Embedding of `make_module_to_builder_dict(datasets)`. Python's
`if datasets:` is truthy only for a non-empty list (`None` and `[]` take
the full-enumeration branch, which filters `BUILDER_BLACKLIST` and then
appends the separately-constructed `image_label_folder` builder). Builders
whose module path contains a `"testing"` segment are skipped
(`continue`). Finally the `"tensorflow_datasets"` root entry is returned. -/
def make_module_to_builder_dict (reg : Registry) (datasets : Option (List String)) : SectionDict :=
  let builders :=
    match datasets with
    | some (d :: ds) => (d :: ds).map reg.builder
    | _ =>
      (reg.list_builders.filter (fun name => !(BUILDER_BLACKLIST.contains name))).map reg.builder
        ++ [reg.image_label_folder]
  let module_to_builder := builders.foldl groupStep ([] : RootDict)
  lookupD module_to_builder "tensorflow_datasets" []

/-- All builders held in one leaf dict. -/
def leafBuilders (d : LeafDict) : List Builder := (d.map Prod.snd).flatten

/-- All builders held in the grouping (every leaf bucket of every section). -/
def buildersOf (m : SectionDict) : List Builder := (m.map (fun p => leafBuilders p.2)).flatten

/-- Embedding of `create_section_toc`. -/
def create_section_toc (s : String) (builders : List Builder) : String :=
  pyJoin "\n"
    (("* [`" ++ s ++ "`](#" ++ s ++ ")") :: builders.map (fun b => "  * [`\"" ++ b.name ++ "\"`](#" ++ b.name ++ ")"))

/-- Build-name order used by `sorted(builders, key=lambda b: b.name)`. -/
def nameLe (a b : Builder) : Prop := strLe a.name b.name

instance : DecidableRel nameLe := fun a b => inferInstanceAs (Decidable (strLe a.name b.name))

instance : IsTotal Builder nameLe := ⟨fun a b => pyLe_total a.name b.name⟩

instance : IsTrans Builder nameLe := ⟨fun a b c => pyLe_trans a.name b.name c.name⟩

/-- `tf.nest.flatten` on one section's leaf-module dict: dict keys are
visited in sorted order and the leaf lists concatenated. -/
def nestFlatten (d : LeafDict) : List Builder :=
  ((List.insertionSort keyLe d).map Prod.snd).flatten

/-- The flat, name-sorted builder list of one section:
`sorted(tf.nest.flatten(module_to_builder[section]), key=lambda b: b.name)`. -/
def sectionBuilders (m : SectionDict) (s : String) : List Builder :=
  List.insertionSort nameLe (nestFlatten (lookupD m s []))

/-- The section order of the document: `sorted(list(module_to_builder.keys()))`. -/
def docSections (m : SectionDict) : List String :=
  List.insertionSort strLe (m.map Prod.fst)

/-- One iteration of the source's config loop: `builder` is reassigned to
`tfds.builder(builder.name, config=config)`, `info` to that builder's
info, and the formatted `SINGLE_CONFIG_ENTRY` is appended to
`config_docs`. The fold state is the current builder together with the
accumulated docs. -/
def configStep (reg : Registry) (st : Builder × List String) (config : Config) : Builder × List String :=
  let b := reg.resolve_config st.1.name config
  (b, st.2 ++ [SINGLE_CONFIG_ENTRY_fmt b.name config.name (make_feature_information b.info)])

/-- Embedding of `document_single_builder(builder)`. The no-config branch
renders `DATASET_ENTRY` from `builder.info`. The config branch transcribes
the source's loop (`configStep`), so after the loop the entry's
dataset-level fields read the LAST iteration's `builder`/`info`. -/
def document_single_builder (reg : Registry) (builder : Builder) : String :=
  let mod_name := builder.module
  let cls_name := builder.cls_name
  let descriptionPrefix := ""
  match builder.BUILDER_CONFIGS with
  | [] =>
    let info := builder.info
    DATASET_ENTRY_fmt builder.name descriptionPrefix info.description (url_from_info info)
      (tfds_mod_name mod_name ++ "." ++ cls_name) (reg.cls_url mod_name) info.version
      (reg.size_str info.size_in_bytes) (make_feature_information info)
      (make_statistics_information info) (format_urls info.urls) info.supervised_keys
      (make_citation info.citation)
  | c :: cs =>
    let res := (c :: cs).foldl (configStep reg) (builder, [])
    let bF := res.1
    let config_docs := res.2
    let info := bF.info
    DATASET_WITH_CONFIGS_ENTRY_fmt bF.name descriptionPrefix bF.info.description (url_from_info info)
      (tfds_mod_name mod_name ++ "." ++ cls_name) (reg.cls_url mod_name)
      (tfds_mod_name mod_name ++ "." ++ bF.builder_config_cls)
      (pyJoin "\n" (bF.BUILDER_CONFIGS.map (fun config =>
        CONFIG_BULLET_fmt config.name config.version
          (reg.size_str (reg.resolve_config bF.name config).info.size_in_bytes) config.description)))
      (pyJoin "\n" config_docs)
      (make_statistics_information info) (format_urls info.urls) info.supervised_keys
      (make_citation info.citation)

/-- The rendering claim C1 describes, written from the claim's words: the
dataset-level fields drawn from an info record (URL, citation, statistics,
supervised keys) come from the FIRST configuration's resolved info record.
All other fields are as in `document_single_builder`. -/
def document_single_builder_firstInfo (reg : Registry) (builder : Builder) : String :=
  let mod_name := builder.module
  let cls_name := builder.cls_name
  let descriptionPrefix := ""
  match builder.BUILDER_CONFIGS with
  | [] =>
    let info := builder.info
    DATASET_ENTRY_fmt builder.name descriptionPrefix info.description (url_from_info info)
      (tfds_mod_name mod_name ++ "." ++ cls_name) (reg.cls_url mod_name) info.version
      (reg.size_str info.size_in_bytes) (make_feature_information info)
      (make_statistics_information info) (format_urls info.urls) info.supervised_keys
      (make_citation info.citation)
  | c :: cs =>
    let res := (c :: cs).foldl (configStep reg) (builder, [])
    let bF := res.1
    let config_docs := res.2
    let info := (reg.resolve_config builder.name c).info
    DATASET_WITH_CONFIGS_ENTRY_fmt bF.name descriptionPrefix bF.info.description (url_from_info info)
      (tfds_mod_name mod_name ++ "." ++ cls_name) (reg.cls_url mod_name)
      (tfds_mod_name mod_name ++ "." ++ bF.builder_config_cls)
      (pyJoin "\n" (bF.BUILDER_CONFIGS.map (fun config =>
        CONFIG_BULLET_fmt config.name config.version
          (reg.size_str (reg.resolve_config bF.name config).info.size_in_bytes) config.description)))
      (pyJoin "\n" config_docs)
      (make_statistics_information info) (format_urls info.urls) info.supervised_keys
      (make_citation info.citation)

/-- The amended rendering, written from the amended claim's words: the
last-resolved builder (the one whose info record supplies every
dataset-level field of the entry) is named directly as the resolution of
the LAST configuration in declared order. -/
def document_single_builder_lastInfo (reg : Registry) (builder : Builder) : String :=
  let mod_name := builder.module
  let cls_name := builder.cls_name
  let descriptionPrefix := ""
  match builder.BUILDER_CONFIGS with
  | [] =>
    let info := builder.info
    DATASET_ENTRY_fmt builder.name descriptionPrefix info.description (url_from_info info)
      (tfds_mod_name mod_name ++ "." ++ cls_name) (reg.cls_url mod_name) info.version
      (reg.size_str info.size_in_bytes) (make_feature_information info)
      (make_statistics_information info) (format_urls info.urls) info.supervised_keys
      (make_citation info.citation)
  | c :: cs =>
    let res := (c :: cs).foldl (configStep reg) (builder, [])
    let config_docs := res.2
    let bL := reg.resolve_config builder.name ((c :: cs).getLast (List.cons_ne_nil c cs))
    let info := bL.info
    DATASET_WITH_CONFIGS_ENTRY_fmt bL.name descriptionPrefix bL.info.description (url_from_info info)
      (tfds_mod_name mod_name ++ "." ++ cls_name) (reg.cls_url mod_name)
      (tfds_mod_name mod_name ++ "." ++ bL.builder_config_cls)
      (pyJoin "\n" (bL.BUILDER_CONFIGS.map (fun config =>
        CONFIG_BULLET_fmt config.name config.version
          (reg.size_str (reg.resolve_config bL.name config).info.size_in_bytes) config.description)))
      (pyJoin "\n" config_docs)
      (make_statistics_information info) (format_urls info.urls) info.supervised_keys
      (make_citation info.citation)

/-- Embedding of `dataset_docs_str(datasets)`: sections in sorted order,
each section's table-of-contents entry and body built from its name-sorted
builders, interpolated into the `DOC` template. -/
def dataset_docs_str (reg : Registry) (datasets : Option (List String)) : String :=
  let module_to_builder := make_module_to_builder_dict reg datasets
  let sections := docSections module_to_builder
  let section_tocs := sections.map (fun s => create_section_toc s (sectionBuilders module_to_builder s))
  let section_docs := sections.map (fun s =>
    SECTION_DATASETS_fmt s
      (pyJoin "\n" ((sectionBuilders module_to_builder s).map (document_single_builder reg))))
  DOC_fmt (pyJoin "\n" section_tocs) (pyJoin "\n" section_docs)

/-- The `JSON_LD_STR` template, exactly as in the source: the key text
`"size:"` carries the colon inside the quotes and is followed directly by
the unquoted size value, and the url value is interpolated unquoted. -/
def JSON_LD_STR_fmt (name description url size : String) : String :=
  "\x7b\n  \"@context\": \"https://schema.org/\",\n  \"@type\": \"Dataset\",\n  \"name\": \"" ++ name
    ++ "\",\n  \"description\": \"" ++ description ++ "\",\n  \"url\": " ++ url
    ++ ",\n  \"size:\" " ++ size ++ ",\n\x7d\n"

/-- Python `str(u).replace("'", "\"")` (single quote is code point 39,
double quote 34). -/
def replaceSquote (s : String) : String :=
  String.mk (s.data.map (fun c => if c = Char.ofNat 39 then Char.ofNat 34 else c))

/-- Embedding of `schema_org(builder)`; `info.urls[0]` on an empty url list
raises `IndexError`, embedded as `none`. -/
def schema_org (reg : Registry) (builder : Builder) : Option String :=
  let info := builder.info
  match info.urls with
  | [] => none
  | u :: _ =>
    some (JSON_LD_STR_fmt builder.name info.description (replaceSquote u)
      (reg.size_str info.size_in_bytes))

/-- Fixture: the empty feature dict. -/
def featEmpty : Feature := Feature.dict "FeaturesDict" []

/-- Fixture: a small concrete info record (mnist-like). -/
def infoBase : Info :=
  { description := "D", version := "1.0.0", urls := ["http://x"], size_in_bytes := 100,
    supervised_keys := "('image', 'label')", citation := "", features := featEmpty,
    splits := [("train", 60000), ("test", 10000)], total_num_examples := 60000 }

/-- Fixture: an info record with no computed statistics and one url. -/
def infoLean : Info :=
  { description := "d", version := "1.0.0", urls := ["u"], size_in_bytes := 1,
    supervised_keys := "None", citation := "", features := featEmpty,
    splits := [], total_num_examples := 0 }

/-- Fixture: an info record whose statistics are zero/unset. -/
def infoZero : Info := { infoBase with splits := [], total_num_examples := 0 }

/-- Fixture: an info record whose url sequence is the one empty string. -/
def infoEmptyUrl : Info := { infoBase with urls := [""] }

/-- Fixture: an info record with no urls at all. -/
def infoNoUrl : Info := { infoBase with urls := [] }

/-- Fixture: a no-config mnist-like builder. -/
def builderMnist : Builder :=
  { name := "mnist", module := "tensorflow_datasets.image.mnist", cls_name := "MNIST",
    BUILDER_CONFIGS := [], builder_config_cls := "", info := infoBase }

/-- Fixture: the separately-constructed `image_label_folder` builder. -/
def builderILF : Builder :=
  { name := "image_label_folder", module := "tensorflow_datasets.image.image_label_folder",
    cls_name := "ImageLabelFolder", BUILDER_CONFIGS := [], builder_config_cls := "",
    info := infoLean }

/-- Fixture: a builder whose module path has a `testing` segment. -/
def builderTesting : Builder :=
  { name := "fake", module := "tensorflow_datasets.testing.fake", cls_name := "Fake",
    BUILDER_CONFIGS := [], builder_config_cls := "", info := infoLean }

/-- Fixture: a registry with mnist registered and the manual
image_label_folder builder supplied separately. -/
def regC3 : Registry :=
  { list_builders := ["mnist", "image_label_folder"],
    builder := fun n => if n = "mnist" then builderMnist else builderILF,
    resolve_config := fun _ _ => builderMnist,
    image_label_folder := builderILF,
    size_str := fun n => toString n ++ " bytes",
    cls_url := fun m => "https://src/" ++ m }

/-- C9: for every split-statistics input whose total example count is zero
or unset (the Python-falsy total, embedded as 0), the statistics renderer
returns exactly the sentinel string "None computed" (and, being a total
function, cannot raise). -/
theorem C9_statistics_sentinel_when_total_zero (info : Info)
    (h : info.total_num_examples = 0) :
    make_statistics_information info = "None computed" := by
  simp [make_statistics_information, h]

/-- Witness for C9 at a concrete info record with uncomputed statistics. -/
theorem C9_statistics_sentinel_witness :
    infoZero.total_num_examples = 0 ∧ make_statistics_information infoZero = "None computed" :=
  ⟨rfl, C9_statistics_sentinel_when_total_zero infoZero rfl⟩

/-- C10 counterexample: for the nonempty url sequence `[""]` the claim
predicts the first URL (the empty string), but the code's
`(info.urls and info.urls[0]) or "<no known url>"` falls through to the
sentinel because the empty first url is falsy. -/
theorem C10_counterexample_empty_first_url :
    infoEmptyUrl.urls = [""] ∧ url_from_info infoEmptyUrl ≠ "" :=
  ⟨rfl, by decide⟩

/-- C10 (amended): an empty url sequence renders the sentinel
"<no known url>"; a nonempty sequence renders its first url, except that a
nonempty sequence whose first url is the empty string also renders the
sentinel. -/
theorem C10_url_from_info_amended (info : Info) :
    (info.urls = [] → url_from_info info = "<no known url>")
    ∧ (∀ u rest, info.urls = u :: rest → u ≠ "" → url_from_info info = u)
    ∧ (∀ rest, info.urls = "" :: rest → url_from_info info = "<no known url>") := by
  refine ⟨fun h => by simp [url_from_info, h], fun u rest h hu => by simp [url_from_info, h, hu],
    fun rest h => by simp [url_from_info, h]⟩

/-- Witness for C10 on a nonempty (and truthy) url list and on an empty one. -/
theorem C10_url_from_info_witness :
    (infoBase.urls = "http://x" :: [] ∧ ("http://x" : String) ≠ "" ∧ url_from_info infoBase = "http://x")
    ∧ (infoNoUrl.urls = [] ∧ url_from_info infoNoUrl = "<no known url>") :=
  ⟨⟨rfl, by decide, (C10_url_from_info_amended infoBase).2.1 "http://x" [] rfl (by decide)⟩,
   ⟨rfl, (C10_url_from_info_amended infoNoUrl).1 rfl⟩⟩

/-- C4 (code bug): evaluating the per-builder JSON-LD output at a concrete
builder shows the emitted text is not a well-formed schema.org record: the
intended size field is emitted as the key text `"size:"` (colon inside the
quotes) followed directly by the unquoted size value with no key-value
separator, and the url value is interpolated without quotes, so no `size`
field (and no parseable JSON object) exists in the output. -/
theorem C4_schema_org_malformed_size_key :
    schema_org regC3 builderMnist
      = some ("\x7b\n  \"@context\": \"https://schema.org/\",\n  \"@type\": \"Dataset\",\n  \"name\": \"mnist\",\n  \"description\": \"D\",\n  \"url\": http://x,\n  \"size:\" 100 bytes,\n\x7d\n") := by
  rfl

/-- C2 counterexample: at total=60000 with splits train=60000, test=10000
the first row is not the ALL row: `stats.sort(reverse=True)` compares
whole `(count, label)` tuples, so the tied TRAIN row (label "TRAIN" being
greater than "ALL") sorts first; the actual order is TRAIN, ALL, TEST and
the rendered table differs from the one the claim states. -/
theorem C2_counterexample_all_row_not_first :
    statRows infoBase = [(60000, "TRAIN"), (60000, "ALL"), (10000, "TEST")]
    ∧ (statRows infoBase).head? ≠ some (60000, "ALL")
    ∧ make_statistics_information infoBase
        ≠ "Split  | Examples\n:----- | ---:\nALL        |     60,000\nTRAIN      |     60,000\nTEST       |     10,000\n" :=
  ⟨by decide, by decide, by decide⟩

/-- C2 (amended): for a nonzero total the rendered table has one
`"{0:10} | {1:>10,}"` row per entry of `statRows`, and those rows are the
aggregate `ALL` row plus one row per split with the upper-cased split name,
sorted descending by the Python pair (count, label) — count descending,
ties broken by label in descending lexicographic order (so a split tying
the total and sorting after "ALL" in ascending order, such as "TRAIN",
precedes the ALL row; for the claim's example the order is TRAIN 60,000,
ALL 60,000, TEST 10,000). -/
theorem C2_statistics_rows_sorted (info : Info) (h : info.total_num_examples ≠ 0) :
    make_statistics_information info
      = STATISTICS_TABLE_fmt (pyJoin "\n"
          ((statRows info).map (fun p => fmtLeft10 p.2 ++ " | " ++ fmtRight10 (numWithCommas p.1))))
    ∧ List.Sorted statGe (statRows info)
    ∧ (statRows info).Perm
        ((info.total_num_examples, "ALL") :: info.splits.map (fun p => (p.2, upperStr p.1))) := by
  refine ⟨by simp [make_statistics_information, h], ?_, ?_⟩
  · exact List.sorted_insertionSort statGe _
  · exact List.perm_insertionSort statGe _

/-- Witness for C2 at the claim's concrete statistics input. -/
theorem C2_statistics_rows_witness :
    infoBase.total_num_examples ≠ 0
    ∧ (make_statistics_information infoBase
        = STATISTICS_TABLE_fmt (pyJoin "\n"
            ((statRows infoBase).map (fun p => fmtLeft10 p.2 ++ " | " ++ fmtRight10 (numWithCommas p.1))))
      ∧ List.Sorted statGe (statRows infoBase)
      ∧ (statRows infoBase).Perm
          ((infoBase.total_num_examples, "ALL") :: infoBase.splits.map (fun p => (p.2, upperStr p.1)))) :=
  ⟨by decide, C2_statistics_rows_sorted infoBase (by decide)⟩

/-- The entry renderer is a map over the entries. -/
theorem _pprint_entries_eq_map (l : List (String × Feature)) (i : Nat) :
    _pprint_entries l i = l.map (fun p => (p.1, _pprint_features_dict p.2 i false)) := by
  induction l with
  | nil => rfl
  | cons hd tl ih =>
    obtain ⟨k, v⟩ := hd
    simp [_pprint_entries, ih]

/-- A key-sorted entry list with distinct keys is strictly key-sorted. -/
theorem sorted_keyLt_of_sorted_keyLe {β : Type} (l : List (String × β))
    (hs : List.Sorted (@keyLe β) l) (hnd : (l.map Prod.fst).Nodup) :
    List.Sorted (@keyLt β) l := by
  have hne : l.Pairwise (fun a b : String × β => a.1 ≠ b.1) := List.pairwise_map.mp hnd
  exact List.Pairwise.imp (fun h => pyLt_of_pyLe_of_ne _ _ h.1 h.2) (hs.and hne)

/-- Sorting by key is invariant under permutation of an entry list with
distinct keys. -/
theorem insertionSort_keyLe_eq_of_perm {β : Type} (l1 l2 : List (String × β))
    (hperm : l1.Perm l2) (hnd : (l1.map Prod.fst).Nodup) :
    List.insertionSort keyLe l1 = List.insertionSort keyLe l2 := by
  have h1 := List.perm_insertionSort (@keyLe β) l1
  have h2 := List.perm_insertionSort (@keyLe β) l2
  have hp : (List.insertionSort keyLe l1).Perm (List.insertionSort keyLe l2) :=
    h1.trans (hperm.trans h2.symm)
  have hnd1 : ((List.insertionSort keyLe l1).map Prod.fst).Nodup :=
    ((h1.map Prod.fst).nodup_iff).mpr hnd
  have hnd2 : ((List.insertionSort keyLe l2).map Prod.fst).Nodup :=
    ((h2.map Prod.fst).nodup_iff).mpr (((hperm.map Prod.fst).nodup_iff).mp hnd)
  exact List.eq_of_perm_of_sorted hp
    (sorted_keyLt_of_sorted_keyLe _ (List.sorted_insertionSort _ _) hnd1)
    (sorted_keyLt_of_sorted_keyLe _ (List.sorted_insertionSort _ _) hnd2)

/-- Definitional unfolding of the dict case of `_pprint_features_dict`. -/
theorem pprint_dict_eq (t : String) (l : List (String × Feature)) (i : Nat) (p : Bool) :
    _pprint_features_dict (.dict t l) i p
      = pyJoin "\n"
          ((((if p then spacesStr i else "") ++ t ++ "(\x7b")
              :: (List.insertionSort keyLe (_pprint_entries l (i + 4))).map
                  (fun q => spacesStr (i + 4) ++ "'" ++ q.1 ++ "': " ++ q.2 ++ ","))
            ++ [spacesStr i ++ "\x7d)"]) := rfl

/-- C6: the feature-tree renderer emits each (sub-)mapping's keys in
lexicographic order independent of the iteration order of the input
mapping: rendering is invariant under permutation of a dict's entries
(dict keys are unique), and the concrete schema with keys b, a renders key
a before key b. -/
theorem C6_pprint_keys_sorted (t : String) (i : Nat) (p : Bool)
    (l1 l2 : List (String × Feature)) (hperm : l1.Perm l2)
    (hnd : (l1.map Prod.fst).Nodup) :
    _pprint_features_dict (.dict t l1) i p = _pprint_features_dict (.dict t l2) i p
    ∧ _pprint_features_dict (.dict "FeaturesDict" [("b", .leaf "leaf2"), ("a", .leaf "leaf1")]) 0 true
        = "FeaturesDict(\x7b\n    'a': leaf1,\n    'b': leaf2,\n\x7d)" := by
  constructor
  · rw [pprint_dict_eq, pprint_dict_eq]
    have hr : (_pprint_entries l1 (i + 4)).Perm (_pprint_entries l2 (i + 4)) := by
      rw [_pprint_entries_eq_map, _pprint_entries_eq_map]
      exact hperm.map _
    have hndr : ((_pprint_entries l1 (i + 4)).map Prod.fst).Nodup := by
      rw [_pprint_entries_eq_map, List.map_map]
      exact hnd
    rw [insertionSort_keyLe_eq_of_perm _ _ hr hndr]
  · rfl

/-- Witness for C6: the two orderings of the b/a schema render identically,
with key a first. -/
theorem C6_pprint_keys_sorted_witness :
    ([("b", Feature.leaf "leaf2"), ("a", Feature.leaf "leaf1")] : List (String × Feature)).Perm
        [("a", Feature.leaf "leaf1"), ("b", Feature.leaf "leaf2")]
    ∧ (([("b", Feature.leaf "leaf2"), ("a", Feature.leaf "leaf1")] : List (String × Feature)).map Prod.fst).Nodup
    ∧ (_pprint_features_dict (.dict "FeaturesDict" [("b", .leaf "leaf2"), ("a", .leaf "leaf1")]) 0 true
          = _pprint_features_dict (.dict "FeaturesDict" [("a", .leaf "leaf1"), ("b", .leaf "leaf2")]) 0 true
      ∧ _pprint_features_dict (.dict "FeaturesDict" [("b", .leaf "leaf2"), ("a", .leaf "leaf1")]) 0 true
          = "FeaturesDict(\x7b\n    'a': leaf1,\n    'b': leaf2,\n\x7d)") :=
  ⟨List.Perm.swap ("a", Feature.leaf "leaf1") ("b", Feature.leaf "leaf2") [], by decide,
   C6_pprint_keys_sorted "FeaturesDict" 0 true _ _
     (List.Perm.swap ("a", Feature.leaf "leaf1") ("b", Feature.leaf "leaf2") []) (by decide)⟩

mutual

/-- The renderer claim C7 describes, written from the claim's words: the
container's type name is prefixed only on the outermost call and omitted
on all nested calls, which render a bare brace-delimited mapping;
everything else as `_pprint_features_dict`. -/
def pprintSpecC7 : Feature → Nat → Bool → String
  | .leaf v, _, _ => v
  | .dict tname entries, indent, add_prefix =>
    let first_last_indent_str := spacesStr indent
    let indent_str := spacesStr (indent + 4)
    let first_line := (if add_prefix then first_last_indent_str ++ tname else "") ++ "(\x7b"
    let sorted := List.insertionSort keyLe (pprintSpecC7Entries entries (indent + 4))
    pyJoin "\n"
      ((first_line :: sorted.map (fun q => indent_str ++ "'" ++ q.1 ++ "': " ++ q.2 ++ ","))
        ++ [first_last_indent_str ++ "\x7d)"])

/-- Entry renderer of `pprintSpecC7`. -/
def pprintSpecC7Entries : List (String × Feature) → Nat → List (String × String)
  | [], _ => []
  | (k, v) :: rest, indent => (k, pprintSpecC7 v indent false) :: pprintSpecC7Entries rest indent

end

/-- Fixture: a schema with one nested sub-schema. -/
def featNested : Feature :=
  Feature.dict "FeaturesDict" [("img", Feature.dict "FeaturesDict" [("x", Feature.leaf "Tensor")])]

/-- C7 counterexample: on a nested schema the source renderer emits the
inner container's type name as well (what an inner call omits is only the
leading indent prefix), so its output differs from the rendering the claim
describes, which drops the type name on nested calls. -/
theorem C7_counterexample_inner_type_name :
    _pprint_features_dict featNested 0 true ≠ pprintSpecC7 featNested 0 true
    ∧ _pprint_features_dict featNested 0 true
        = "FeaturesDict(\x7b\n    'img': FeaturesDict(\x7b\n        'x': Tensor,\n    \x7d),\n\x7d)"
    ∧ pprintSpecC7 featNested 0 true
        = "FeaturesDict(\x7b\n    'img': (\x7b\n        'x': Tensor,\n    \x7d),\n\x7d)" :=
  ⟨by decide, by decide, by decide⟩

/-- Helper: prepending text to the first element of a joined list. -/
theorem pyJoin_first_append (sep x a : String) (l : List String) :
    pyJoin sep ((x ++ a) :: l) = x ++ pyJoin sep (a :: l) := by
  cases l with
  | nil => rfl
  | cons b bs => simp [pyJoin, String.append_assoc]

/-- C7 (amended): the renderer prefixes the current indentation only on the
outermost call — an inner call omits only that indent prefix — while the
container's type name is emitted by every call, outer and nested alike;
nested schemas are rendered with 4 additional indent spaces (and no indent
prefix of their own), and leaves render by their plain textual form. -/
theorem C7_pprint_prefix_amended :
    (∀ s i p, _pprint_features_dict (.leaf s) i p = s)
    ∧ (∀ t l i, _pprint_features_dict (.dict t l) i true
        = spacesStr i ++ _pprint_features_dict (.dict t l) i false)
    ∧ (∀ t l i, ∃ rest, _pprint_features_dict (.dict t l) i false = t ++ "(\x7b" ++ rest)
    ∧ (∀ t k v i p, _pprint_features_dict (.dict t [(k, v)]) i p
        = pyJoin "\n"
            [(if p then spacesStr i else "") ++ t ++ "(\x7b",
             spacesStr (i + 4) ++ "'" ++ k ++ "': " ++ _pprint_features_dict v (i + 4) false ++ ",",
             spacesStr i ++ "\x7d)"]) := by
  refine ⟨fun s i p => rfl, ?_, ?_, fun t k v i p => rfl⟩
  · intro t l i
    have h1 := pprint_dict_eq t l i true
    have h2 := pprint_dict_eq t l i false
    rw [if_pos rfl] at h1
    rw [if_neg (by simp), String.empty_append] at h2
    rw [h1, h2, String.append_assoc]
    exact pyJoin_first_append "\n" (spacesStr i) (t ++ "(\x7b") _
  · intro t l i
    have h2 := pprint_dict_eq t l i false
    rw [if_neg (by simp), String.empty_append] at h2
    cases hL : (List.insertionSort keyLe (_pprint_entries l (i + 4))).map
        (fun q => spacesStr (i + 4) ++ "'" ++ q.1 ++ "': " ++ q.2 ++ ",") with
    | nil =>
      refine ⟨"\n" ++ (spacesStr i ++ "\x7d)"), ?_⟩
      rw [h2, hL]
      show (t ++ "(\x7b") ++ "\n" ++ (spacesStr i ++ "\x7d)")
        = t ++ "(\x7b" ++ ("\n" ++ (spacesStr i ++ "\x7d)"))
      rw [String.append_assoc]
    | cons line restLines =>
      refine ⟨"\n" ++ pyJoin "\n" (line :: (restLines ++ [spacesStr i ++ "\x7d)"])), ?_⟩
      rw [h2, hL]
      show (t ++ "(\x7b") ++ "\n" ++ pyJoin "\n" (line :: (restLines ++ [spacesStr i ++ "\x7d)"]))
        = t ++ "(\x7b" ++ ("\n" ++ pyJoin "\n" (line :: (restLines ++ [spacesStr i ++ "\x7d)"])))
      rw [String.append_assoc]

/-- Fixture: a no-config builder in section `text`. -/
def mkTextBuilder (n : String) : Builder :=
  { name := n, module := "tensorflow_datasets.text." ++ n, cls_name := "B",
    BUILDER_CONFIGS := [], builder_config_cls := "", info := infoLean }

/-- Fixture: a registry whose builders zeta, alpha, mid all live in one
section, listed out of order. -/
def regC5 : Registry :=
  { list_builders := ["zeta", "alpha", "mid"], builder := mkTextBuilder,
    resolve_config := fun _ _ => mkTextBuilder "zeta", image_label_folder := builderILF,
    size_str := fun n => toString n ++ " bytes", cls_url := fun m => "https://src/" ++ m }

/-- C5: in the assembled document the sections are ordered lexicographically
by section name and the builders within each section lexicographically by
builder name, whatever the input order; concretely, builders zeta, alpha,
mid in one section come out alpha, mid, zeta; and `dataset_docs_str` is
the `DOC` template interpolated over exactly these sorted section and
builder lists. -/
theorem C5_document_ordering (reg : Registry) (datasets : Option (List String)) :
    List.Sorted strLe (docSections (make_module_to_builder_dict reg datasets))
    ∧ (∀ s, List.Sorted nameLe (sectionBuilders (make_module_to_builder_dict reg datasets) s))
    ∧ (sectionBuilders (make_module_to_builder_dict regC5 (some ["zeta", "alpha", "mid"])) "text").map Builder.name
        = ["alpha", "mid", "zeta"]
    ∧ dataset_docs_str reg datasets
        = DOC_fmt
            (pyJoin "\n" ((docSections (make_module_to_builder_dict reg datasets)).map
              (fun s => create_section_toc s (sectionBuilders (make_module_to_builder_dict reg datasets) s))))
            (pyJoin "\n" ((docSections (make_module_to_builder_dict reg datasets)).map
              (fun s => SECTION_DATASETS_fmt s
                (pyJoin "\n" ((sectionBuilders (make_module_to_builder_dict reg datasets) s).map
                  (document_single_builder reg)))))) :=
  ⟨List.sorted_insertionSort _ _, fun _ => List.sorted_insertionSort _ _, by decide, rfl⟩

/-- Generic collector over one association-list level: all builders in all
values, via a per-value collector. -/
def collectL {β : Type} (coll : β → List Builder) (l : List (String × β)) : List Builder :=
  (l.map (fun p => coll p.2)).flatten

/-- Inserting via `assocUpdate` can only add occurrences of `b` (elimination
direction), provided the default collects to nothing and the update
function only adds `b`. -/
theorem mem_collectL_assocUpdate_elim {β : Type} (coll : β → List Builder)
    (l : List (String × β)) (k : String) (dflt : β) (f : β → β) (b x : Builder)
    (hdflt : coll dflt = [])
    (hf : ∀ v y, y ∈ coll (f v) → y ∈ coll v ∨ y = b)
    (hx : x ∈ collectL coll (assocUpdate l k dflt f)) :
    x ∈ collectL coll l ∨ x = b := by
  induction l with
  | nil =>
    simp only [assocUpdate, collectL, List.map_cons, List.map_nil, List.flatten_cons,
      List.flatten_nil, List.append_nil] at hx
    rcases hf dflt x hx with h | h
    · rw [hdflt] at h
      cases h
    · exact Or.inr h
  | cons hd tl ih =>
    obtain ⟨k1, v⟩ := hd
    by_cases hk : k1 = k
    · simp only [assocUpdate, if_pos hk, collectL, List.map_cons, List.flatten_cons,
        List.mem_append] at hx ⊢
      rcases hx with h | h
      · rcases hf v x h with h2 | h2
        · exact Or.inl (Or.inl h2)
        · exact Or.inr h2
      · exact Or.inl (Or.inr h)
    · simp only [assocUpdate, if_neg hk, collectL, List.map_cons, List.flatten_cons,
        List.mem_append] at hx ⊢
      rcases hx with h | h
      · exact Or.inl (Or.inl h)
      · rcases ih h with h2 | h2
        · exact Or.inl (Or.inr h2)
        · exact Or.inr h2

/-- `assocUpdate` keeps every previously collected builder, provided the
update function is monotone. -/
theorem mem_collectL_assocUpdate_mono {β : Type} (coll : β → List Builder)
    (l : List (String × β)) (k : String) (dflt : β) (f : β → β) (x : Builder)
    (hf : ∀ v, x ∈ coll v → x ∈ coll (f v))
    (hx : x ∈ collectL coll l) :
    x ∈ collectL coll (assocUpdate l k dflt f) := by
  induction l with
  | nil =>
    simp only [collectL, List.map_nil, List.flatten_nil] at hx
    cases hx
  | cons hd tl ih =>
    obtain ⟨k1, v⟩ := hd
    simp only [collectL, List.map_cons, List.flatten_cons, List.mem_append] at hx
    by_cases hk : k1 = k
    · simp only [assocUpdate, if_pos hk, collectL, List.map_cons, List.flatten_cons,
        List.mem_append]
      rcases hx with h | h
      · exact Or.inl (hf v h)
      · exact Or.inr h
    · simp only [assocUpdate, if_neg hk, collectL, List.map_cons, List.flatten_cons,
        List.mem_append]
      rcases hx with h | h
      · exact Or.inl h
      · exact Or.inr (ih h)

/-- After an `assocUpdate`, the updated key's bucket contributes `f` of
something, so anything `f` always produces is collected. -/
theorem mem_collectL_assocUpdate_self {β : Type} (coll : β → List Builder)
    (l : List (String × β)) (k : String) (dflt : β) (f : β → β) (b : Builder)
    (hf : ∀ v, b ∈ coll (f v)) :
    b ∈ collectL coll (assocUpdate l k dflt f) := by
  induction l with
  | nil =>
    simp only [assocUpdate, collectL, List.map_cons, List.map_nil, List.flatten_cons,
      List.flatten_nil, List.append_nil]
    exact hf dflt
  | cons hd tl ih =>
    obtain ⟨k1, v⟩ := hd
    by_cases hk : k1 = k
    · simp only [assocUpdate, if_pos hk, collectL, List.map_cons, List.flatten_cons,
        List.mem_append]
      exact Or.inl (hf v)
    · simp only [assocUpdate, if_neg hk, collectL, List.map_cons, List.flatten_cons,
        List.mem_append]
      exact Or.inr ih

/-- A collected member of a defaulted lookup is collected somewhere in the
list, or comes from the default. -/
theorem mem_coll_lookupD {β : Type} (coll : β → List Builder)
    (l : List (String × β)) (k : String) (dflt : β) (x : Builder)
    (hx : x ∈ coll (lookupD l k dflt)) :
    x ∈ collectL coll l ∨ x ∈ coll dflt := by
  induction l with
  | nil =>
    simp only [lookupD] at hx
    exact Or.inr hx
  | cons hd tl ih =>
    obtain ⟨k1, v⟩ := hd
    by_cases hk : k1 = k
    · simp only [lookupD, if_pos hk] at hx
      exact Or.inl (by
        simp only [collectL, List.map_cons, List.flatten_cons, List.mem_append]
        exact Or.inl hx)
    · simp only [lookupD, if_neg hk] at hx
      rcases ih hx with h | h
      · exact Or.inl (by
          simp only [collectL, List.map_cons, List.flatten_cons, List.mem_append]
          exact Or.inr h)
      · exact Or.inr h

/-- Updating key `k` and then looking `k` up yields the update applied to
the old (or default) value. -/
theorem lookupD_assocUpdate_self {β : Type} (l : List (String × β)) (k : String)
    (dflt : β) (f : β → β) :
    lookupD (assocUpdate l k dflt f) k dflt = f (lookupD l k dflt) := by
  induction l with
  | nil => simp [assocUpdate, lookupD]
  | cons hd tl ih =>
    obtain ⟨k1, v⟩ := hd
    by_cases hk : k1 = k
    · simp [assocUpdate, lookupD, hk]
    · simp [assocUpdate, lookupD, hk, ih]

/-- Updating one key leaves lookups of other keys unchanged. -/
theorem lookupD_assocUpdate_ne {β : Type} (l : List (String × β)) (k k2 : String)
    (dflt dflt2 : β) (f : β → β) (h : k ≠ k2) :
    lookupD (assocUpdate l k dflt f) k2 dflt2 = lookupD l k2 dflt2 := by
  induction l with
  | nil => simp [assocUpdate, lookupD, h]
  | cons hd tl ih =>
    obtain ⟨k1, v⟩ := hd
    by_cases hk : k1 = k
    · subst hk
      simp [assocUpdate, lookupD, h]
    · simp [assocUpdate, lookupD, hk, ih]

theorem leafBuilders_eq_collectL (d : LeafDict) : leafBuilders d = collectL (fun l => l) d := rfl

theorem buildersOf_eq_collectL (m : SectionDict) : buildersOf m = collectL leafBuilders m := rfl

theorem mem_leafBuilders_insertLeaf_elim (v : LeafDict) (m2 : String) (b y : Builder)
    (hy : y ∈ leafBuilders (insertLeaf v m2 b)) : y ∈ leafBuilders v ∨ y = b := by
  refine mem_collectL_assocUpdate_elim (fun l => l) v m2 [] _ b y rfl ?_ hy
  intro _w z hz
  simpa using List.mem_append.mp hz

theorem mem_buildersOf_insertSection_elim (d : SectionDict) (m1 m2 : String) (b x : Builder)
    (hx : x ∈ buildersOf (insertSection d m1 m2 b)) : x ∈ buildersOf d ∨ x = b :=
  mem_collectL_assocUpdate_elim leafBuilders d m1 [] _ b x rfl
    (fun v y hy => mem_leafBuilders_insertLeaf_elim v m2 b y hy) hx

theorem mem_leafBuilders_insertLeaf_self (v : LeafDict) (m2 : String) (b : Builder) :
    b ∈ leafBuilders (insertLeaf v m2 b) :=
  mem_collectL_assocUpdate_self (fun l => l) v m2 [] _ b (fun w => by simp)

theorem mem_buildersOf_insertSection_self (d : SectionDict) (m1 m2 : String) (b : Builder) :
    b ∈ buildersOf (insertSection d m1 m2 b) :=
  mem_collectL_assocUpdate_self leafBuilders d m1 [] _ b
    (fun v => mem_leafBuilders_insertLeaf_self v m2 b)

theorem mem_leafBuilders_insertLeaf_mono (v : LeafDict) (m2 : String) (b y : Builder)
    (hy : y ∈ leafBuilders v) : y ∈ leafBuilders (insertLeaf v m2 b) :=
  mem_collectL_assocUpdate_mono (fun l => l) v m2 [] _ y
    (fun _w hz => List.mem_append.mpr (Or.inl hz)) hy

theorem mem_buildersOf_insertSection_mono (d : SectionDict) (m1 m2 : String) (b x : Builder)
    (hx : x ∈ buildersOf d) : x ∈ buildersOf (insertSection d m1 m2 b) :=
  mem_collectL_assocUpdate_mono leafBuilders d m1 [] _ x
    (fun v hy => mem_leafBuilders_insertLeaf_mono v m2 b x hy) hx

/-- All builders anywhere in a root dict. -/
def allBuilders (d : RootDict) : List Builder := collectL buildersOf d

theorem mem_allBuilders_insertPath (d : RootDict) (mods : List String) (b x : Builder)
    (hx : x ∈ allBuilders (insertPath d mods b)) : x ∈ allBuilders d ∨ x = b := by
  rcases mods with _ | ⟨m0, _ | ⟨m1, _ | ⟨m2, _ | ⟨m3, rest⟩⟩⟩⟩
  · exact Or.inl hx
  · exact Or.inl hx
  · exact Or.inl hx
  · exact mem_collectL_assocUpdate_elim buildersOf d m0 [] _ b x rfl
      (fun v y hy => mem_buildersOf_insertSection_elim v m1 m2 b y hy) hx
  · exact Or.inl hx

/-- All builders of the returned `"tensorflow_datasets"` subtree. -/
def topBuilders (d : RootDict) : List Builder :=
  buildersOf (lookupD d "tensorflow_datasets" [])

theorem topBuilders_insertPath_self (d : RootDict) (m1 m2 : String) (b : Builder) :
    b ∈ topBuilders (insertPath d ["tensorflow_datasets", m1, m2] b) := by
  show b ∈ buildersOf (lookupD (assocUpdate d "tensorflow_datasets" []
    (fun d1 => insertSection d1 m1 m2 b)) "tensorflow_datasets" [])
  rw [lookupD_assocUpdate_self]
  exact mem_buildersOf_insertSection_self _ m1 m2 b

theorem topBuilders_insertPath_mono (d : RootDict) (mods : List String) (b x : Builder)
    (hx : x ∈ topBuilders d) : x ∈ topBuilders (insertPath d mods b) := by
  rcases mods with _ | ⟨m0, _ | ⟨m1, _ | ⟨m2, _ | ⟨m3, rest⟩⟩⟩⟩
  · exact hx
  · exact hx
  · exact hx
  · by_cases hm : m0 = "tensorflow_datasets"
    · subst hm
      show x ∈ buildersOf (lookupD (assocUpdate d "tensorflow_datasets" []
        (fun d1 => insertSection d1 m1 m2 b)) "tensorflow_datasets" [])
      rw [lookupD_assocUpdate_self]
      exact mem_buildersOf_insertSection_mono _ m1 m2 b x hx
    · show x ∈ buildersOf (lookupD (assocUpdate d m0 []
        (fun d1 => insertSection d1 m1 m2 b)) "tensorflow_datasets" [])
      rw [lookupD_assocUpdate_ne _ _ _ _ _ _ hm]
      exact hx
  · exact hx

theorem topBuilders_groupStep_mono (d : RootDict) (b x : Builder)
    (hx : x ∈ topBuilders d) : x ∈ topBuilders (groupStep d b) := by
  by_cases ht : "testing" ∈ splitModule b.module
  · show x ∈ topBuilders (if "testing" ∈ splitModule b.module then d
      else insertPath d (splitModule b.module) b)
    rw [if_pos ht]
    exact hx
  · show x ∈ topBuilders (if "testing" ∈ splitModule b.module then d
      else insertPath d (splitModule b.module) b)
    rw [if_neg ht]
    exact topBuilders_insertPath_mono d _ b x hx

theorem topBuilders_foldl_mono (bs : List Builder) (d : RootDict) (x : Builder)
    (hx : x ∈ topBuilders d) : x ∈ topBuilders (bs.foldl groupStep d) := by
  induction bs generalizing d with
  | nil => exact hx
  | cons b rest ih =>
    rw [List.foldl_cons]
    exact ih _ (topBuilders_groupStep_mono d b x hx)

theorem topBuilders_foldl_self (bs : List Builder) (d : RootDict) (b : Builder)
    (m1 m2 : String) (hmem : b ∈ bs)
    (ht : "testing" ∉ splitModule b.module)
    (hm : splitModule b.module = ["tensorflow_datasets", m1, m2]) :
    b ∈ topBuilders (bs.foldl groupStep d) := by
  induction bs generalizing d with
  | nil => cases hmem
  | cons b0 rest ih =>
    rw [List.foldl_cons]
    rcases List.mem_cons.mp hmem with rfl | h
    · apply topBuilders_foldl_mono
      have hstep : groupStep d b = insertPath d ["tensorflow_datasets", m1, m2] b := by
        show (if "testing" ∈ splitModule b.module then d
          else insertPath d (splitModule b.module) b) = _
        rw [if_neg ht, hm]
      rw [hstep]
      exact topBuilders_insertPath_self d m1 m2 b
    · exact ih _ h

theorem mem_topBuilders_insertPath_elim (d : RootDict) (mods : List String) (b x : Builder)
    (hx : x ∈ topBuilders (insertPath d mods b)) : x ∈ topBuilders d ∨ x = b := by
  rcases mods with _ | ⟨m0, _ | ⟨m1, _ | ⟨m2, _ | ⟨m3, rest⟩⟩⟩⟩
  · exact Or.inl hx
  · exact Or.inl hx
  · exact Or.inl hx
  · by_cases hm : m0 = "tensorflow_datasets"
    · subst hm
      have hx2 : x ∈ buildersOf (lookupD (assocUpdate d "tensorflow_datasets" []
          (fun d1 => insertSection d1 m1 m2 b)) "tensorflow_datasets" []) := hx
      rw [lookupD_assocUpdate_self] at hx2
      exact mem_buildersOf_insertSection_elim _ m1 m2 b x hx2
    · have hx2 : x ∈ buildersOf (lookupD (assocUpdate d m0 []
          (fun d1 => insertSection d1 m1 m2 b)) "tensorflow_datasets" []) := hx
      rw [lookupD_assocUpdate_ne _ _ _ _ _ _ hm] at hx2
      exact Or.inl hx2
  · exact Or.inl hx

theorem mem_topBuilders_foldl_elim (bs : List Builder) (d : RootDict) (x : Builder)
    (hx : x ∈ topBuilders (bs.foldl groupStep d)) :
    x ∈ topBuilders d ∨ ∃ b, b ∈ bs ∧ "testing" ∉ splitModule b.module ∧ x = b := by
  induction bs generalizing d with
  | nil => exact Or.inl hx
  | cons b0 rest ih =>
    rw [List.foldl_cons] at hx
    rcases ih _ hx with h | h
    · by_cases ht : "testing" ∈ splitModule b0.module
      · have hstep : groupStep d b0 = d := by
          show (if "testing" ∈ splitModule b0.module then d
            else insertPath d (splitModule b0.module) b0) = d
          rw [if_pos ht]
        rw [hstep] at h
        exact Or.inl h
      · have hstep : groupStep d b0 = insertPath d (splitModule b0.module) b0 := by
          show (if "testing" ∈ splitModule b0.module then d
            else insertPath d (splitModule b0.module) b0) = _
          rw [if_neg ht]
        rw [hstep] at h
        rcases mem_topBuilders_insertPath_elim d _ b0 x h with h2 | h2
        · exact Or.inl h2
        · exact Or.inr ⟨b0, List.mem_cons_self _ _, ht, h2⟩
    · rcases h with ⟨b2, hb2, hnt, hxe⟩
      exact Or.inr ⟨b2, List.mem_cons_of_mem _ hb2, hnt, hxe⟩

/-- C8: a builder whose origin module path contains a `testing` segment
anywhere is excluded from the grouping, unconditionally: for every
registry and for both the default (`none`) and explicit-list enumeration. -/
theorem C8_testing_module_excluded (reg : Registry) (datasets : Option (List String)) (b : Builder)
    (hb : "testing" ∈ splitModule b.module) :
    b ∉ buildersOf (make_module_to_builder_dict reg datasets) := by
  intro hmem
  have hmem2 : b ∈ topBuilders
      ((match datasets with
        | some (d :: ds) => (d :: ds).map reg.builder
        | _ =>
          (reg.list_builders.filter (fun name => !(BUILDER_BLACKLIST.contains name))).map reg.builder
            ++ [reg.image_label_folder]).foldl groupStep ([] : RootDict)) := hmem
  rcases mem_topBuilders_foldl_elim _ _ b hmem2 with h | h
  · simp [topBuilders, lookupD, buildersOf, collectL] at h
  · rcases h with ⟨b2, _, hnt, rfl⟩
    exact hnt hb

/-- Witness for C8 at a concrete testing-path builder and registry. -/
theorem C8_testing_module_excluded_witness :
    "testing" ∈ splitModule builderTesting.module
    ∧ builderTesting ∉ buildersOf (make_module_to_builder_dict regC3 none) :=
  ⟨by decide, C8_testing_module_excluded regC3 none builderTesting (by decide)⟩

/-- C3 counterexample: in the default full enumeration (no explicit dataset
list) the designated extra-argument builder IS part of the grouping: the
source filters its name out of `list_builders` but then unconditionally
appends the separately-constructed instance. -/
theorem C3_counterexample_default_includes_manual_builder :
    regC3.image_label_folder.name = "image_label_folder"
    ∧ regC3.image_label_folder ∈ buildersOf (make_module_to_builder_dict regC3 none) := by
  refine ⟨rfl, ?_⟩
  have h : buildersOf (make_module_to_builder_dict regC3 none) = [builderMnist, builderILF] := rfl
  have h2 : regC3.image_label_folder = builderILF := rfl
  rw [h, h2]
  simp

/-- C3 (amended): the designated builder `image_label_folder` is excluded
from the blacklist-filtered enumeration of registered names, but the
default branch then appends the separately-constructed instance, so the
default grouping contains it (its module path being a regular
three-segment path without a `testing` segment); it is likewise included
when its name is explicitly requested. -/
theorem C3_image_label_folder_grouping (reg : Registry) (names : List String)
    (m1 m2 m3 m4 : String)
    (h1 : splitModule reg.image_label_folder.module = ["tensorflow_datasets", m1, m2])
    (ht1 : "testing" ∉ splitModule reg.image_label_folder.module)
    (h2 : splitModule (reg.builder "image_label_folder").module = ["tensorflow_datasets", m3, m4])
    (ht2 : "testing" ∉ splitModule (reg.builder "image_label_folder").module)
    (h3 : "image_label_folder" ∈ names) :
    ("image_label_folder" ∈ BUILDER_BLACKLIST
      ∧ "image_label_folder" ∉ reg.list_builders.filter (fun name => !(BUILDER_BLACKLIST.contains name)))
    ∧ reg.image_label_folder ∈ buildersOf (make_module_to_builder_dict reg none)
    ∧ reg.builder "image_label_folder" ∈ buildersOf (make_module_to_builder_dict reg (some names)) := by
  refine ⟨⟨by decide, ?_⟩, ?_, ?_⟩
  · intro hmem
    have hpred := (List.mem_filter.mp hmem).2
    simp [BUILDER_BLACKLIST] at hpred
  · show reg.image_label_folder ∈ topBuilders
      (((reg.list_builders.filter (fun name => !(BUILDER_BLACKLIST.contains name))).map reg.builder
        ++ [reg.image_label_folder]).foldl groupStep ([] : RootDict))
    exact topBuilders_foldl_self _ _ _ m1 m2 (by simp) ht1 h1
  · obtain ⟨d0, ds, rfl⟩ : ∃ d0 ds, names = d0 :: ds := by
      cases names with
      | nil => cases h3
      | cons a l => exact ⟨a, l, rfl⟩
    show reg.builder "image_label_folder" ∈ topBuilders
      (((d0 :: ds).map reg.builder).foldl groupStep ([] : RootDict))
    exact topBuilders_foldl_self _ _ _ m3 m4 (List.mem_map_of_mem reg.builder h3) ht2 h2

/-- Witness for C3 at the concrete registry, requesting the builder by name. -/
theorem C3_image_label_folder_grouping_witness :
    (splitModule regC3.image_label_folder.module = ["tensorflow_datasets", "image", "image_label_folder"]
      ∧ "testing" ∉ splitModule regC3.image_label_folder.module
      ∧ "image_label_folder" ∈ ["image_label_folder"])
    ∧ (("image_label_folder" ∈ BUILDER_BLACKLIST
        ∧ "image_label_folder" ∉ regC3.list_builders.filter (fun name => !(BUILDER_BLACKLIST.contains name)))
      ∧ regC3.image_label_folder ∈ buildersOf (make_module_to_builder_dict regC3 none)
      ∧ regC3.builder "image_label_folder" ∈ buildersOf (make_module_to_builder_dict regC3 (some ["image_label_folder"]))) :=
  ⟨⟨by decide, by decide, by decide⟩,
   C3_image_label_folder_grouping regC3 ["image_label_folder"] "image" "image_label_folder"
     "image" "image_label_folder" (by decide) (by decide) (by decide) (by decide) (by decide)⟩

/-- The builder component of the config loop's final state is the
resolution of the LAST configuration (under the original name, when
resolution preserves names as `tfds.builder` does). -/
theorem configStep_foldl_fst (reg : Registry)
    (hpres : ∀ n c, (reg.resolve_config n c).name = n) :
    ∀ (cs : List Config) (c : Config) (st : Builder × List String),
      ((c :: cs).foldl (configStep reg) st).1
        = reg.resolve_config st.1.name ((c :: cs).getLast (List.cons_ne_nil c cs)) := by
  intro cs
  induction cs with
  | nil => intro c st; rfl
  | cons c2 cs2 ih =>
    intro c st
    rw [List.foldl_cons]
    rw [ih c2 (configStep reg st c)]
    have h1 : (configStep reg st c).1.name = st.1.name := hpres st.1.name c
    rw [h1, List.getLast_cons (List.cons_ne_nil c2 cs2)]

/-- C1 (amended): for every builder with one or more configurations, the
rendered entry equals the amended rendering in which all dataset-level
info-derived fields (URL, url list, citation, statistics table,
supervised-keys string, description) come from the LAST configuration's
resolved info record — the resolution of the last declared configuration
under the original builder name — provided resolution preserves the
builder name. With exactly one configuration this coincides with the
first. -/
theorem C1_dataset_fields_from_last_config (reg : Registry) (builder : Builder)
    (hpres : ∀ n c, (reg.resolve_config n c).name = n) :
    document_single_builder reg builder = document_single_builder_lastInfo reg builder := by
  cases hcfg : builder.BUILDER_CONFIGS with
  | nil => simp [document_single_builder, document_single_builder_lastInfo, hcfg]
  | cons c cs =>
    simp only [document_single_builder, document_single_builder_lastInfo, hcfg]
    rw [configStep_foldl_fst reg hpres cs c (builder, [])]

/-- Fixture: two configuration descriptors. -/
def cfg1 : Config := { name := "c1", description := "dc1", version := "1.0.0" }

/-- Fixture: the second configuration descriptor. -/
def cfg2 : Config := { name := "c2", description := "dc2", version := "2.0.0" }

/-- Fixture: the first configuration's resolved info record. -/
def infoCfg1 : Info := { infoLean with urls := ["http://cfg1"] }

/-- Fixture: the second configuration's resolved info record. -/
def infoCfg2 : Info := { infoLean with urls := ["http://cfg2"] }

/-- Fixture: a builder declaring two configurations. -/
def builderPaired : Builder :=
  { name := "paired", module := "tensorflow_datasets.image.paired", cls_name := "Paired",
    BUILDER_CONFIGS := [cfg1, cfg2], builder_config_cls := "PairedConfig", info := infoLean }

/-- Fixture: a registry resolving each configuration to its own info. -/
def regC1 : Registry :=
  { list_builders := ["paired"], builder := fun _ => builderPaired,
    resolve_config := fun n c =>
      { builderPaired with name := n, info := if c.name = "c1" then infoCfg1 else infoCfg2 },
    image_label_folder := builderILF,
    size_str := fun n => toString n ++ " bytes", cls_url := fun m => "https://src/" ++ m }

/-- C1 counterexample: with two configurations whose resolved info records
carry different urls, the rendered entry differs from the rendering the
claim describes (dataset-level fields from the FIRST configuration's
resolved info record): the entry reads the last configuration's info. -/
theorem C1_counterexample_first_config :
    builderPaired.BUILDER_CONFIGS = [cfg1, cfg2]
    ∧ document_single_builder regC1 builderPaired
        ≠ document_single_builder_firstInfo regC1 builderPaired :=
  ⟨rfl, by decide⟩

/-- Witness for C1 at the two-config fixture (name-preserving resolution). -/
theorem C1_dataset_fields_witness :
    (∀ n c, (regC1.resolve_config n c).name = n)
    ∧ document_single_builder regC1 builderPaired = document_single_builder_lastInfo regC1 builderPaired :=
  ⟨fun _ _ => rfl, C1_dataset_fields_from_last_config regC1 builderPaired (fun _ _ => rfl)⟩
